import Mathlib

/-!
Verification of the PotJack chain-synchronization engine.

This file gives a shallow embedding, in Lean, of the persistence-facing parts
of the blockchain synchronization service (event appliers, sync-cursor store,
backfill chunking, reconnect supervisor, Solana pagination and ordering, and
the EVM health probe), translated from the TypeScript source, together with
theorems about the embedded definitions.

Conventions of the embedding:
* database tables are lists of rows; an `INSERT` appends to the end of the
  list, an `UPDATE` maps over the list replacing the matched row;
* a unique index is modelled by an explicit membership test before the insert:
  the TypeScript code performs the insert and catches the PostgreSQL 23505
  (unique-violation) error, which aborts the remainder of the handler, so the
  model tests the key first and, when the key is already present, returns the
  state accumulated up to (and excluding) the failing insert;
* JavaScript numbers that hold integral block numbers, round ids, counts and
  amounts are modelled as `Int`; timestamps as integral epoch values.
-/

namespace PotJack

/-- Row of the `ticket_purchases` table (entity `TicketPurchase`).  The unique
index `IDX_ticket_purchases_tx_log` is on `(transactionHash, logIndex)`. -/
structure TicketPurchaseRow where
  buyer : String
  token : String
  roundId : Int
  chainId : Int
  contractAddress : String
  count : Int
  totalAmount : Int
  blockTimestamp : Int
  transactionHash : String
  logIndex : Int
deriving Repr, DecidableEq

/-- Row of the `user_round_stats` table (entity `UserRoundStats`).  The unique
constraint `UQ_user_round_stats` is on `(user, token, roundId, contractAddress)`. -/
structure UserRoundStatsRow where
  user : String
  token : String
  roundId : Int
  contractAddress : String
  ticketCount : Int
  isConsecutive : Bool
  consecutiveRounds : Int
  totalWins : Int
  roundTimestamp : Int
deriving Repr, DecidableEq

/-- Row of the `rounds` table (entity `Round`).  The migration
`AddRound1759235694350` creates only non-unique single-column indexes on
`contractAddress`, `token`, `roundId` and `chainId`; the table has no unique
natural key (its primary key is a generated uuid, not modelled). -/
structure RoundRow where
  contractAddress : String
  token : String
  roundId : Int
  chainId : Int
  startTime : Int
  endTime : Int
deriving Repr, DecidableEq

/-- Row of the `first_ticket_bonuses` table (entity `FirstTicketBonus`).  The
unique index `IDX_first_ticket_bonuses_tx_log` is on `(transactionHash, logIndex)`. -/
structure FirstTicketBonusRow where
  buyer : String
  token : String
  roundId : Int
  chainId : Int
  contractAddress : String
  blockTimestamp : Int
  transactionHash : String
  logIndex : Int
deriving Repr, DecidableEq

/-- Row of the `blockchain_syncs` table (entity `BlockchainSync`): the durable
sync cursor, one row per `(blockchainName, contractAddress)` pair. -/
structure SyncCursorRow where
  blockchainName : String
  contractAddress : String
  lastSyncedBlock : Int
deriving Repr, DecidableEq

/-- The relational store as seen by the event appliers.  Users are identified
by their address (`users.address` is how `getOrCreateUser` looks them up). -/
structure DB where
  users : List String
  purchases : List TicketPurchaseRow
  stats : List UserRoundStatsRow
  rounds : List RoundRow
  bonuses : List FirstTicketBonusRow
  cursors : List SyncCursorRow
deriving Repr, DecidableEq

/-- The empty store. -/
def emptyDB : DB :=
  { users := [], purchases := [], stats := [], rounds := [], bonuses := [], cursors := [] }

/-- `getOrCreateUser`: an `INSERT ... orIgnore` of the address followed by a
lookup; on the list model this appends the address when it is not present. -/
def getOrCreateUser (users : List String) (address : String) : List String :=
  if users.contains address then users else users ++ [address]

/-- Test of the unique index `IDX_ticket_purchases_tx_log`: does a
`ticket_purchases` row with this `(transactionHash, logIndex)` already exist? -/
def hasPurchaseKey (purchases : List TicketPurchaseRow) (txHash : String) (idx : Int) : Bool :=
  purchases.any (fun r => r.transactionHash == txHash && r.logIndex == idx)

/-- Test of the unique index `IDX_first_ticket_bonuses_tx_log`. -/
def hasBonusKey (bonuses : List FirstTicketBonusRow) (txHash : String) (idx : Int) : Bool :=
  bonuses.any (fun r => r.transactionHash == txHash && r.logIndex == idx)

/-- Match on the unique key `(user, token, roundId, contractAddress)` of
`user_round_stats`. -/
def statsKeyMatches (r : UserRoundStatsRow) (user token : String) (roundId : Int)
    (contractAddress : String) : Bool :=
  r.user == user && r.token == token && r.roundId == roundId &&
    r.contractAddress == contractAddress

/-- The `userRoundStatsRepository.findOne` lookup by the unique key. -/
def findStats? (stats : List UserRoundStatsRow) (user token : String) (roundId : Int)
    (contractAddress : String) : Option UserRoundStatsRow :=
  stats.find? (fun r => statsKeyMatches r user token roundId contractAddress)

/-- Fold step keeping the row with the greater `roundId`. -/
def maxStep (best : Option UserRoundStatsRow) (r : UserRoundStatsRow) :
    Option UserRoundStatsRow :=
  match best with
  | none => some r
  | some b => if b.roundId < r.roundId then some r else some b

/-- Pick the row with the greatest `roundId` (the effect of
`ORDER BY "roundId" DESC LIMIT 1` on the filtered row set). -/
def maxByRoundId? (l : List UserRoundStatsRow) : Option UserRoundStatsRow :=
  l.foldl maxStep none

/-- Filter of the `previousRound` query: same user, token and contract, with a
strictly smaller `roundId`. -/
def previousRoundFilter (r : UserRoundStatsRow) (user token contractAddress : String)
    (roundId : Int) : Bool :=
  r.user == user && r.token == token && r.contractAddress == contractAddress &&
    decide (r.roundId < roundId)

/-- The `previousRound` query of the ticket-purchase appliers: the most recent
`user_round_stats` row of the same user, token and contract with
`roundId < current`, if any. -/
def previousRound? (stats : List UserRoundStatsRow) (user token contractAddress : String)
    (roundId : Int) : Option UserRoundStatsRow :=
  maxByRoundId? (stats.filter (fun r => previousRoundFilter r user token contractAddress roundId))

/-- `userRoundStatsRepository.save`: an `UPDATE` when a row with the unique key
already exists (the entity was loaded), an `INSERT` otherwise. -/
def saveStats (stats : List UserRoundStatsRow) (row : UserRoundStatsRow) :
    List UserRoundStatsRow :=
  if (findStats? stats row.user row.token row.roundId row.contractAddress).isSome then
    stats.map (fun r =>
      if statsKeyMatches r row.user row.token row.roundId row.contractAddress then row else r)
  else stats ++ [row]

/-- Match on the `(blockchainName, contractAddress)` pair of a cursor row. -/
def cursorKeyMatches (c : SyncCursorRow) (blockchainName contractAddress : String) : Bool :=
  c.blockchainName == blockchainName && c.contractAddress == contractAddress

/-- `updateLastSyncedBlock`: skipped when any parameter is JavaScript-falsy
(block number `0`, empty strings); otherwise the existing row is overwritten
with the passed position, or a fresh row is created.  There is no comparison
with the currently stored position. -/
def updateLastSyncedBlock (cursors : List SyncCursorRow)
    (blockchainName contractAddress : String) (blockNumber : Int) : List SyncCursorRow :=
  if blockNumber == 0 || blockchainName == "" || contractAddress == "" then cursors
  else if cursors.any (fun c => cursorKeyMatches c blockchainName contractAddress) then
    cursors.map (fun c =>
      if cursorKeyMatches c blockchainName contractAddress then
        { c with lastSyncedBlock := blockNumber }
      else c)
  else cursors ++ [{ blockchainName := blockchainName, contractAddress := contractAddress,
                     lastSyncedBlock := blockNumber }]

/-- `getLastSyncedBlock`: the stored position, where a stored `0` is collapsed
to "none" by the JavaScript expression `(syncRecord && Number(...)) || null`. -/
def getLastSyncedBlock (cursors : List SyncCursorRow)
    (blockchainName contractAddress : String) : Option Int :=
  match cursors.find? (fun c => cursorKeyMatches c blockchainName contractAddress) with
  | none => none
  | some c => if c.lastSyncedBlock == 0 then none else some c.lastSyncedBlock

/-- Raw stored cursor value for a `(blockchainName, contractAddress)` pair,
used to state properties about what the store holds. -/
def storedCursor (cursors : List SyncCursorRow)
    (blockchainName contractAddress : String) : Option Int :=
  (cursors.find? (fun c => cursorKeyMatches c blockchainName contractAddress)).map
    (fun c => c.lastSyncedBlock)

/-- Canonical TicketPurchased event, as passed to `processTicketPurchasedEvent`. -/
structure TicketPurchasedEvent where
  token : String
  roundId : Int
  buyer : String
  count : Int
  totalAmount : Int
  timestamp : Int
  chainId : Int
  transactionHash : String
  blockNumber : Int
  blockchainName : String
  contractAddress : String
  logIndex : Int
deriving Repr, DecidableEq

/-- Canonical FirstTicketBonusAwarded event, as passed to
`processFirstTicketBonusEvent`. -/
structure FirstTicketBonusEvent where
  token : String
  roundId : Int
  buyer : String
  timestamp : Int
  roundStartTime : Int
  roundEndTime : Int
  chainId : Int
  transactionHash : String
  blockNumber : Int
  blockchainName : String
  contractAddress : String
  logIndex : Int
deriving Repr, DecidableEq

/-- The `user_round_stats` row of a ticket-purchase application before the
streak fields are set: the row of the event's key with `ticketCount`
accumulated, or a freshly created row (`isConsecutive = false`,
`consecutiveRounds = 0`, `totalWins` carried from the previous round). -/
def purchaseStatsBase (stats : List UserRoundStatsRow) (e : TicketPurchasedEvent) :
    UserRoundStatsRow :=
  match findStats? stats e.buyer e.token e.roundId e.contractAddress with
  | none =>
      { user := e.buyer, token := e.token, roundId := e.roundId,
        contractAddress := e.contractAddress, ticketCount := e.count,
        isConsecutive := false, consecutiveRounds := 0,
        totalWins := ((previousRound? stats e.buyer e.token e.contractAddress
                        e.roundId).map (fun p => p.totalWins)).getD 0,
        roundTimestamp := e.timestamp }
  | some r => { r with ticketCount := r.ticketCount + e.count }

/-- The `user_round_stats` row written by a ticket-purchase application: the
base row with `isConsecutive` / `consecutiveRounds` set from the
`previousRound` row: adjacent prior round present → consecutive, streak
extended when the prior row was itself consecutive, else restarted at `1`;
otherwise the streak is reset to `0`. -/
def purchaseStatsUpdate (stats : List UserRoundStatsRow) (e : TicketPurchasedEvent) :
    UserRoundStatsRow :=
  let base := purchaseStatsBase stats e
  match previousRound? stats e.buyer e.token e.contractAddress e.roundId with
  | some p =>
      if p.roundId == e.roundId - 1 then
        { base with isConsecutive := true,
                    consecutiveRounds :=
                      if p.isConsecutive then p.consecutiveRounds + 1 else 1 }
      else { base with consecutiveRounds := 0 }
  | none => { base with consecutiveRounds := 0 }

/-- The `ticket_purchases` row built from a TicketPurchased event. -/
def purchaseRowOf (e : TicketPurchasedEvent) : TicketPurchaseRow :=
  { buyer := e.buyer, token := e.token, roundId := e.roundId, chainId := e.chainId,
    contractAddress := e.contractAddress, count := e.count, totalAmount := e.totalAmount,
    blockTimestamp := e.timestamp, transactionHash := e.transactionHash,
    logIndex := e.logIndex }

/-- `processTicketPurchasedEvent`: get-or-create the buyer, insert the
`ticket_purchases` row (a duplicate `(transactionHash, logIndex)` raises 23505,
which the handler catches, skipping every later step), then recompute the
`user_round_stats` row using the `previousRound` query, and finally advance the
cursor to the event's block number.  The Solana variant
`processSolanaTicketPurchasedEvent` performs the identical find/previous/streak
computation. -/
def processTicketPurchasedEvent (db : DB) (e : TicketPurchasedEvent) : DB :=
  let db0 := { db with users := getOrCreateUser db.users e.buyer }
  if hasPurchaseKey db0.purchases e.transactionHash e.logIndex then
    db0
  else
    let db1 := { db0 with purchases := db0.purchases ++ [purchaseRowOf e] }
    let db2 := { db1 with stats := saveStats db1.stats (purchaseStatsUpdate db1.stats e) }
    { db2 with cursors := updateLastSyncedBlock db2.cursors e.blockchainName
                            e.contractAddress e.blockNumber }

/-- `processFirstTicketBonusEvent`: get-or-create the buyer, insert a fresh
`rounds` row (the table has no unique natural key, so this insert always
succeeds), then insert the `first_ticket_bonuses` row — a duplicate
`(transactionHash, logIndex)` raises 23505 there, which the handler catches;
the already-inserted `rounds` row is not rolled back (the handler runs no
transaction), and the cursor is not advanced. -/
def processFirstTicketBonusEvent (db : DB) (e : FirstTicketBonusEvent) : DB :=
  let db0 := { db with users := getOrCreateUser db.users e.buyer }
  let round : RoundRow :=
    { contractAddress := e.contractAddress, token := e.token, roundId := e.roundId,
      chainId := e.chainId, startTime := e.roundStartTime, endTime := e.roundEndTime }
  let db1 := { db0 with rounds := db0.rounds ++ [round] }
  if hasBonusKey db1.bonuses e.transactionHash e.logIndex then
    db1
  else
    let bonus : FirstTicketBonusRow :=
      { buyer := e.buyer, token := e.token, roundId := e.roundId, chainId := e.chainId,
        contractAddress := e.contractAddress, blockTimestamp := e.timestamp,
        transactionHash := e.transactionHash, logIndex := e.logIndex }
    let db2 := { db1 with bonuses := db1.bonuses ++ [bonus] }
    { db2 with cursors := updateLastSyncedBlock db2.cursors e.blockchainName
                            e.contractAddress e.blockNumber }

/-- Number of `ticket_purchases` rows carrying a given natural key. -/
def countPurchaseKey (purchases : List TicketPurchaseRow) (txHash : String) (idx : Int) : Nat :=
  (purchases.filter (fun r => r.transactionHash == txHash && r.logIndex == idx)).length

/-- Number of `rounds` rows for a `(contractAddress, token, roundId)` triple. -/
def countRounds (rounds : List RoundRow) (contractAddress token : String) (roundId : Int) : Nat :=
  (rounds.filter (fun r =>
    r.contractAddress == contractAddress && r.token == token && r.roundId == roundId)).length

/-- Ticket count held by the `user_round_stats` row of a key, `0` when the row
does not exist. -/
def statsTicketCount (stats : List UserRoundStatsRow) (user token : String) (roundId : Int)
    (contractAddress : String) : Int :=
  ((findStats? stats user token roundId contractAddress).map (fun r => r.ticketCount)).getD 0

/-! ### Backfill chunking (`fetchHistoricalEvents`)

The while-loop of `fetchHistoricalEvents` is embedded as a fuel-indexed
recursion; the fuel is the block span `toBlock + 1 - fromBlock`, which bounds
the number of loop iterations whenever `1 ≤ maxRange` (the service uses
`maxBlockRange = 10000`). -/

/-- One observable step of the chunked backfill loop: a chunk fetch-and-apply,
or a cursor write (`updateLastSyncedBlock` to the chunk's end block). -/
inductive BackfillStep where
  | fetchChunk (fromBlock toBlock : Nat)
  | cursorWrite (position : Nat)
deriving Repr, DecidableEq

/-- The chunk list produced by the loop
`while (currentFrom <= toBlock) { currentTo = min(currentFrom + maxRange - 1, toBlock); ...;
currentFrom = currentTo + 1 }`. -/
def chunkLoop (maxRange : Nat) : Nat → Nat → Nat → List (Nat × Nat)
  | 0, _, _ => []
  | fuel + 1, currentFrom, toBlock =>
    if currentFrom ≤ toBlock then
      let currentTo := min (currentFrom + maxRange - 1) toBlock
      (currentFrom, currentTo) :: chunkLoop maxRange fuel (currentTo + 1) toBlock
    else []

/-- The chunks of a backfill over `[fromBlock, toBlock]`. -/
def chunkRanges (maxRange fromBlock toBlock : Nat) : List (Nat × Nat) :=
  chunkLoop maxRange (toBlock + 1 - fromBlock) fromBlock toBlock

/-- The step trace of the chunked loop body: each iteration fetches and applies
one chunk and then writes the cursor to that chunk's end block, before the next
iteration starts. -/
def backfillLoop (maxRange : Nat) : Nat → Nat → Nat → List BackfillStep
  | 0, _, _ => []
  | fuel + 1, currentFrom, toBlock =>
    if currentFrom ≤ toBlock then
      let currentTo := min (currentFrom + maxRange - 1) toBlock
      BackfillStep.fetchChunk currentFrom currentTo :: BackfillStep.cursorWrite currentTo ::
        backfillLoop maxRange fuel (currentTo + 1) toBlock
    else []

/-- The step trace of `fetchHistoricalEvents`: when the span
`toBlock - fromBlock + 1` is within `maxRange` the range is fetched directly
and the cursor is written once, to `toBlock`; otherwise the chunked loop runs. -/
def fetchHistoricalPlan (maxRange fromBlock toBlock : Nat) : List BackfillStep :=
  if toBlock + 1 - fromBlock ≤ maxRange then
    [BackfillStep.fetchChunk fromBlock toBlock, BackfillStep.cursorWrite toBlock]
  else backfillLoop maxRange (toBlock + 1 - fromBlock) fromBlock toBlock

/-! ### Reconnect supervisor (`reconnectBlockchain`, `forceReconnect`) -/

/-- Per-chain supervisor state: the `reconnectAttempts` counter and the
`connectionStates` flag for one chain. -/
structure ChainState where
  reconnectAttempts : Nat
  connected : Bool
deriving Repr, DecidableEq

/-- Observable outcome of one invocation of `reconnectBlockchain`:
the state afterwards, whether the max-attempts guard let an attempt happen, the
blocking delay awaited inside the attempt (`reconnectDelay * currentAttempts`),
and the delay of the retry scheduled by the failure handler
(`reconnectDelay * (currentAttempts + 1)`), when any. -/
structure ReconnectOutcome where
  state : ChainState
  attempted : Bool
  waitBefore : Nat
  scheduledRetryDelay : Option Nat
deriving Repr, DecidableEq

/-- `reconnectBlockchain`: refuse when `currentAttempts >= maxReconnectAttempts`;
otherwise increment the counter, tear down, wait `reconnectDelay * currentAttempts`,
and recreate the connection.  On success the counter is reset to `0`; on failure
the state keeps the incremented counter and a retry is scheduled after
`reconnectDelay * (currentAttempts + 1)`.  `succeeds` abstracts whether the
recreate/resubscribe cycle throws. -/
def reconnectBlockchain (maxReconnectAttempts reconnectDelay : Nat) (s : ChainState)
    (succeeds : Bool) : ReconnectOutcome :=
  let currentAttempts := s.reconnectAttempts
  if maxReconnectAttempts ≤ currentAttempts then
    { state := s, attempted := false, waitBefore := 0, scheduledRetryDelay := none }
  else if succeeds then
    { state := { reconnectAttempts := 0, connected := true }, attempted := true,
      waitBefore := reconnectDelay * currentAttempts, scheduledRetryDelay := none }
  else
    { state := { reconnectAttempts := currentAttempts + 1, connected := false },
      attempted := true, waitBefore := reconnectDelay * currentAttempts,
      scheduledRetryDelay := some (reconnectDelay * (currentAttempts + 1)) }

/-- `forceReconnect`: the public entry point merely awaits
`reconnectBlockchain` for the named chain; it does not touch the
`reconnectAttempts` counter before doing so. -/
def forceReconnect (maxReconnectAttempts reconnectDelay : Nat) (s : ChainState)
    (succeeds : Bool) : ReconnectOutcome :=
  reconnectBlockchain maxReconnectAttempts reconnectDelay s succeeds

/-- Trace of `n` consecutive invocations of `reconnectBlockchain` in which
every attempted reconnection fails (the scheduled retry fires each next
invocation). -/
def reconnectFailTrace (maxReconnectAttempts reconnectDelay : Nat) :
    Nat → ChainState → List ReconnectOutcome
  | 0, _ => []
  | n + 1, s =>
    let o := reconnectBlockchain maxReconnectAttempts reconnectDelay s false
    o :: reconnectFailTrace maxReconnectAttempts reconnectDelay n o.state

/-! ### Solana backfill ordering (`fetchSolanaTransactions`) -/

/-- A transaction signature as returned by `getSignaturesForAddress`, with the
slot it executed in.  The history API returns signatures newest-first. -/
structure SigInfo where
  signature : String
  slot : Int
deriving Repr, DecidableEq

/-- `getSignaturesForAddress` page size used by the pagination loop. -/
def solanaPageLimit : Nat := 1000

/-- The pagination loop of `fetchSolanaTransactions` over the sequence of pages
returned by the history API: stop on an empty page; stop (without keeping the
page) when the page's first slot is below `fromBlock`; otherwise keep the
signatures inside `[fromBlock, toBlock]` and continue unless the page's last
slot is below `fromBlock` or the page is shorter than the page limit. -/
def collectSignatures (fromBlock toBlock : Int) : List (List SigInfo) → List SigInfo
  | [] => []
  | [] :: _ => []
  | (first :: tail) :: rest =>
    if first.slot < fromBlock then []
    else
      let filtered := (first :: tail).filter
        (fun s => decide (fromBlock ≤ s.slot) && decide (s.slot ≤ toBlock))
      let lastSig := (first :: tail).getLast (List.cons_ne_nil first tail)
      if lastSig.slot < fromBlock then filtered
      else if (first :: tail).length < solanaPageLimit then filtered
      else filtered ++ collectSignatures fromBlock toBlock rest

/-- The order in which `fetchSolanaTransactions` applies the fetched
transactions: the collected sequence is reversed (`allSignatures.reverse()`)
before the processing loop, so items are applied oldest-first. -/
def solanaApplyOrder (fromBlock toBlock : Int) (pages : List (List SigInfo)) : List SigInfo :=
  (collectSignatures fromBlock toBlock pages).reverse

/-! ### EVM health probe (`checkConnectionHealth`) -/

/-- Classification at the heart of the probe: the chain is behind when
`blockNumber - lastSyncedBlock > syncThresholdBlocks`. -/
def syncNeeded (height lastSyncedBlock threshold : Int) : Bool :=
  decide (threshold < height - lastSyncedBlock)

/-- The WebSocket branch of `checkConnectionHealth` for an EVM chain, reduced
to its observable decision: the boolean the probe returns, and the backfill
range it initiates, if any.  When the chain is behind, the probe starts
`fetchHistoricalEvents` over `[lastSyncedBlock + 1, blockNumber]` and returns
that backfill's result; otherwise it reports healthy with no backfill. -/
def checkConnectionHealthEvm (height : Int) (cursor : Option Int) (threshold : Int)
    (backfillResult : Bool) : Bool × Option (Int × Int) :=
  match cursor with
  | some lastSyncedBlock =>
    if syncNeeded height lastSyncedBlock threshold then
      (backfillResult, some (lastSyncedBlock + 1, height))
    else (true, none)
  | none => (true, none)

/-- Which catch-up backfill (contract, fromBlock, toBlock) the EVM health probe
initiates: the probe reads `config.contractAddresses[0]` only, looks up that
contract's cursor with `getLastSyncedBlock`, and backfills it when behind.
Contracts other than the first are never examined. -/
def healthCheckBackfillTarget (contractAddresses : List String) (blockchainName : String)
    (cursors : List SyncCursorRow) (height threshold : Int) : Option (String × Int × Int) :=
  match contractAddresses with
  | [] => none
  | contractAddress :: _ =>
    match getLastSyncedBlock cursors blockchainName contractAddress with
    | some lastSyncedBlock =>
      if syncNeeded height lastSyncedBlock threshold then
        some (contractAddress, lastSyncedBlock + 1, height)
      else none
    | none => none

/-! ### Concrete inputs used by witnesses and counterexamples -/

/-- TicketPurchased event of the idempotency example:
`TicketPurchased(tx="0xA", idx=0, count=3)`. -/
def purchaseA : TicketPurchasedEvent :=
  { token := "T", roundId := 7, buyer := "0xBuyer", count := 3, totalAmount := 30,
    timestamp := 1000, chainId := 1, transactionHash := "0xA", blockNumber := 56,
    blockchainName := "ethereum", contractAddress := "0xC", logIndex := 0 }

/-- FirstTicketBonusAwarded event used for the Round-uniqueness check. -/
def bonusB : FirstTicketBonusEvent :=
  { token := "T", roundId := 7, buyer := "0xBuyer", timestamp := 1000, roundStartTime := 900,
    roundEndTime := 2000, chainId := 1, transactionHash := "0xB", blockNumber := 55,
    blockchainName := "ethereum", contractAddress := "0xC", logIndex := 0 }

/-- Ticket purchase of user `0xU` in a given round (streak example). -/
def streakPurchase (rid : Int) (tx : String) : TicketPurchasedEvent :=
  { token := "T", roundId := rid, buyer := "0xU", count := 1, totalAmount := 10,
    timestamp := 1000, chainId := 1, transactionHash := tx, blockNumber := 50,
    blockchainName := "ethereum", contractAddress := "0xC", logIndex := 0 }

/-- Store after the user played round 5. -/
def dbAfterRound5 : DB := processTicketPurchasedEvent emptyDB (streakPurchase 5 "0x1")

/-- Store after the user played rounds 5 and 6. -/
def dbAfterRound6 : DB := processTicketPurchasedEvent dbAfterRound5 (streakPurchase 6 "0x2")

/-- Store after the user played rounds 5, 6 and 8 (round 7 skipped). -/
def dbAfterRound8 : DB := processTicketPurchasedEvent dbAfterRound6 (streakPurchase 8 "0x3")

/-- Store holding a sync cursor at block 107 for the pair
`("ethereum", "0xC")` and no events. -/
def dbCursor107 : DB :=
  { emptyDB with cursors := [{ blockchainName := "ethereum", contractAddress := "0xC",
                               lastSyncedBlock := 107 }] }

/-- A live TicketPurchased event in block 100, older than the stored cursor of
`dbCursor107` but not yet persisted. -/
def latePurchase : TicketPurchasedEvent :=
  { token := "T", roundId := 7, buyer := "0xBuyer", count := 1, totalAmount := 10,
    timestamp := 1000, chainId := 1, transactionHash := "0xLate", blockNumber := 100,
    blockchainName := "ethereum", contractAddress := "0xC", logIndex := 0 }

/-- One Solana history page, newest-first: a TicketPurchased transaction in
slot 20 followed by the FirstTicketBonusAwarded transaction in slot 10 of the
same `(token, roundId)`. -/
def solanaPage : List (List SigInfo) :=
  [[{ signature := "sigPurchase", slot := 20 }, { signature := "sigBonus", slot := 10 }]]

/-- Cursor store of the multi-contract health-probe example: the first
configured contract `0xA` is synced to block 107; the second contract `0xB` is
far behind, at block 1. -/
def multiContractCursors : List SyncCursorRow :=
  [{ blockchainName := "ethereum", contractAddress := "0xA", lastSyncedBlock := 107 },
   { blockchainName := "ethereum", contractAddress := "0xB", lastSyncedBlock := 1 }]

/-! ## Helper lemmas -/

theorem getOrCreateUser_contains (users : List String) (a : String) :
    (getOrCreateUser users a).contains a = true := by
  unfold getOrCreateUser
  by_cases h : users.contains a
  · rw [if_pos h]; exact h
  · rw [if_neg h]; simp

theorem getOrCreateUser_of_contains (users : List String) (a : String)
    (h : users.contains a = true) : getOrCreateUser users a = users := by
  unfold getOrCreateUser
  rw [if_pos h]

theorem statsKeyMatches_self (r : UserRoundStatsRow) :
    statsKeyMatches r r.user r.token r.roundId r.contractAddress = true := by
  simp [statsKeyMatches]

theorem find?_map_replace {α : Type} (p : α → Bool) (b : α) (hb : p b = true) :
    ∀ l : List α,
      List.find? p (l.map (fun a => if p a then b else a)) =
        if (List.find? p l).isSome then some b else none
  | [] => rfl
  | hd :: tl => by
    by_cases h : p hd
    · simp [h, hb]
    · simp [h, find?_map_replace p b hb tl]

theorem find?_map_update {α : Type} (p : α → Bool) (g : α → α) (hg : ∀ a, p (g a) = p a) :
    ∀ l : List α,
      List.find? p (l.map (fun a => if p a then g a else a)) = (List.find? p l).map g
  | [] => rfl
  | hd :: tl => by
    by_cases h : p hd
    · simp [h, hg]
    · simp [h, find?_map_update p g hg tl]

theorem findStats?_saveStats_self (stats : List UserRoundStatsRow) (row : UserRoundStatsRow) :
    findStats? (saveStats stats row) row.user row.token row.roundId row.contractAddress
      = some row := by
  simp only [saveStats, findStats?]
  by_cases h : (List.find?
      (fun r => statsKeyMatches r row.user row.token row.roundId row.contractAddress)
      stats).isSome
  · rw [if_pos h, find?_map_replace _ row (statsKeyMatches_self row), if_pos h]
  · rw [if_neg h, List.find?_append]
    have hnone : List.find?
        (fun r => statsKeyMatches r row.user row.token row.roundId row.contractAddress)
        stats = none := by
      cases hf : List.find?
          (fun r => statsKeyMatches r row.user row.token row.roundId row.contractAddress)
          stats
      · rfl
      · rw [hf] at h; simp at h
    simp [hnone, statsKeyMatches_self row]

theorem findStats?_mem_key (stats : List UserRoundStatsRow) (user token : String)
    (roundId : Int) (contractAddress : String) (r : UserRoundStatsRow)
    (h : findStats? stats user token roundId contractAddress = some r) :
    r ∈ stats ∧ r.user = user ∧ r.token = token ∧ r.roundId = roundId ∧
      r.contractAddress = contractAddress := by
  have hmem := List.mem_of_find?_eq_some h
  have hp := List.find?_some h
  simp only [statsKeyMatches, Bool.and_eq_true, beq_iff_eq] at hp
  exact ⟨hmem, hp.1.1.1, hp.1.1.2, hp.1.2, hp.2⟩

theorem purchaseStatsBase_key (stats : List UserRoundStatsRow) (e : TicketPurchasedEvent) :
    (purchaseStatsBase stats e).user = e.buyer ∧
    (purchaseStatsBase stats e).token = e.token ∧
    (purchaseStatsBase stats e).roundId = e.roundId ∧
    (purchaseStatsBase stats e).contractAddress = e.contractAddress := by
  unfold purchaseStatsBase
  cases hex : findStats? stats e.buyer e.token e.roundId e.contractAddress with
  | none => exact ⟨rfl, rfl, rfl, rfl⟩
  | some r =>
    obtain ⟨-, h1, h2, h3, h4⟩ := findStats?_mem_key _ _ _ _ _ _ hex
    exact ⟨h1, h2, h3, h4⟩

theorem purchaseStatsUpdate_key (stats : List UserRoundStatsRow) (e : TicketPurchasedEvent) :
    (purchaseStatsUpdate stats e).user = e.buyer ∧
    (purchaseStatsUpdate stats e).token = e.token ∧
    (purchaseStatsUpdate stats e).roundId = e.roundId ∧
    (purchaseStatsUpdate stats e).contractAddress = e.contractAddress := by
  obtain ⟨h1, h2, h3, h4⟩ := purchaseStatsBase_key stats e
  unfold purchaseStatsUpdate
  cases hprev : previousRound? stats e.buyer e.token e.contractAddress e.roundId with
  | none => exact ⟨h1, h2, h3, h4⟩
  | some p =>
    dsimp only
    by_cases hadj : (p.roundId == e.roundId - 1) = true
    · rw [if_pos hadj]; exact ⟨h1, h2, h3, h4⟩
    · rw [if_neg hadj]; exact ⟨h1, h2, h3, h4⟩

theorem purchaseStatsBase_ticketCount (stats : List UserRoundStatsRow)
    (e : TicketPurchasedEvent) :
    (purchaseStatsBase stats e).ticketCount =
      statsTicketCount stats e.buyer e.token e.roundId e.contractAddress + e.count := by
  unfold purchaseStatsBase statsTicketCount
  cases hex : findStats? stats e.buyer e.token e.roundId e.contractAddress with
  | none => simp
  | some r => simp

theorem purchaseStatsUpdate_ticketCount (stats : List UserRoundStatsRow)
    (e : TicketPurchasedEvent) :
    (purchaseStatsUpdate stats e).ticketCount =
      statsTicketCount stats e.buyer e.token e.roundId e.contractAddress + e.count := by
  unfold purchaseStatsUpdate
  cases hprev : previousRound? stats e.buyer e.token e.contractAddress e.roundId with
  | none => exact purchaseStatsBase_ticketCount stats e
  | some p =>
    dsimp only
    by_cases hadj : (p.roundId == e.roundId - 1) = true
    · rw [if_pos hadj]; exact purchaseStatsBase_ticketCount stats e
    · rw [if_neg hadj]; exact purchaseStatsBase_ticketCount stats e

theorem processTicketPurchased_users (db : DB) (e : TicketPurchasedEvent) :
    (processTicketPurchasedEvent db e).users = getOrCreateUser db.users e.buyer := by
  unfold processTicketPurchasedEvent
  by_cases h : hasPurchaseKey db.purchases e.transactionHash e.logIndex <;> simp [h]

theorem processTicketPurchased_key_present (db : DB) (e : TicketPurchasedEvent)
    (h : hasPurchaseKey db.purchases e.transactionHash e.logIndex = true) :
    processTicketPurchasedEvent db e = { db with users := getOrCreateUser db.users e.buyer } := by
  unfold processTicketPurchasedEvent
  simp [h]

theorem processTicketPurchased_fresh (db : DB) (e : TicketPurchasedEvent)
    (h : hasPurchaseKey db.purchases e.transactionHash e.logIndex = false) :
    processTicketPurchasedEvent db e =
      { users := getOrCreateUser db.users e.buyer,
        purchases := db.purchases ++ [purchaseRowOf e],
        stats := saveStats db.stats (purchaseStatsUpdate db.stats e),
        rounds := db.rounds,
        bonuses := db.bonuses,
        cursors := updateLastSyncedBlock db.cursors e.blockchainName e.contractAddress
                     e.blockNumber } := by
  unfold processTicketPurchasedEvent
  simp [h]

theorem processTicketPurchased_hasKey (db : DB) (e : TicketPurchasedEvent) :
    hasPurchaseKey (processTicketPurchasedEvent db e).purchases e.transactionHash
      e.logIndex = true := by
  by_cases h : hasPurchaseKey db.purchases e.transactionHash e.logIndex
  · rw [processTicketPurchased_key_present db e h]
    exact h
  · rw [processTicketPurchased_fresh db e (Bool.eq_false_iff.mpr h)]
    show hasPurchaseKey (db.purchases ++ [purchaseRowOf e]) _ _ = true
    rw [hasPurchaseKey, List.any_append]
    simp [purchaseRowOf, hasPurchaseKey]

theorem statsTicketCount_eq_of_find (stats : List UserRoundStatsRow) (user token : String)
    (roundId : Int) (contractAddress : String) (r : UserRoundStatsRow)
    (h : findStats? stats user token roundId contractAddress = some r) :
    statsTicketCount stats user token roundId contractAddress = r.ticketCount := by
  unfold statsTicketCount
  rw [h]
  rfl

/-! ## Claim C1: idempotent ticket-purchase application -/

/-- C1.  Applying the same TicketPurchased event twice (same `transactionHash`
and `logIndex`) leaves the store exactly as after the first application: the
second run's event-row insert hits the unique index, the 23505 failure is
caught and the aggregate update is skipped. After the pair of applications
exactly one `ticket_purchases` row holds the key and the `user_round_stats`
row's `ticketCount` has grown by the event's `count` once. -/
theorem ticketPurchased_idempotent (db : DB) (e : TicketPurchasedEvent)
    (h : hasPurchaseKey db.purchases e.transactionHash e.logIndex = false) :
    processTicketPurchasedEvent (processTicketPurchasedEvent db e) e
        = processTicketPurchasedEvent db e
    ∧ countPurchaseKey (processTicketPurchasedEvent db e).purchases e.transactionHash
        e.logIndex = 1
    ∧ statsTicketCount (processTicketPurchasedEvent db e).stats e.buyer e.token e.roundId
        e.contractAddress
      = statsTicketCount db.stats e.buyer e.token e.roundId e.contractAddress + e.count := by
  refine ⟨?_, ?_, ?_⟩
  · have hk := processTicketPurchased_hasKey db e
    have hu := processTicketPurchased_users db e
    rw [processTicketPurchased_key_present _ e hk, hu,
      getOrCreateUser_of_contains _ _ (getOrCreateUser_contains db.users e.buyer), ← hu]
  · rw [processTicketPurchased_fresh db e h]
    have hnil : db.purchases.filter
        (fun r => r.transactionHash == e.transactionHash && r.logIndex == e.logIndex) = [] := by
      rw [List.filter_eq_nil_iff]
      intro r hr
      have := (List.any_eq_false.mp h) r hr
      simpa using this
    simp [countPurchaseKey, List.filter_append, hnil, purchaseRowOf]
  · rw [processTicketPurchased_fresh db e h]
    obtain ⟨h1, h2, h3, h4⟩ := purchaseStatsUpdate_key db.stats e
    have hfind : findStats? (saveStats db.stats (purchaseStatsUpdate db.stats e)) e.buyer
        e.token e.roundId e.contractAddress = some (purchaseStatsUpdate db.stats e) := by
      conv_lhs => rw [← h1, ← h2, ← h3, ← h4]
      exact findStats?_saveStats_self db.stats (purchaseStatsUpdate db.stats e)
    rw [statsTicketCount_eq_of_find _ _ _ _ _ _ hfind, purchaseStatsUpdate_ticketCount]

/-- C1 witness: the concrete event `TicketPurchased(tx="0xA", idx=0, count=3)`
applied twice to the empty store. -/
theorem ticketPurchased_idempotent_witness :
    hasPurchaseKey emptyDB.purchases purchaseA.transactionHash purchaseA.logIndex = false
    ∧ (processTicketPurchasedEvent (processTicketPurchasedEvent emptyDB purchaseA) purchaseA
        = processTicketPurchasedEvent emptyDB purchaseA
    ∧ countPurchaseKey (processTicketPurchasedEvent emptyDB purchaseA).purchases
        purchaseA.transactionHash purchaseA.logIndex = 1
    ∧ statsTicketCount (processTicketPurchasedEvent emptyDB purchaseA).stats purchaseA.buyer
        purchaseA.token purchaseA.roundId purchaseA.contractAddress
      = statsTicketCount emptyDB.stats purchaseA.buyer purchaseA.token purchaseA.roundId
          purchaseA.contractAddress + purchaseA.count) :=
  ⟨by decide, ticketPurchased_idempotent emptyDB purchaseA (by decide)⟩

/-! ## Claim C2: consecutive-round streak computation -/

theorem foldl_maxStep_some (l : List UserRoundStatsRow) :
    ∀ b : UserRoundStatsRow, ∃ p, l.foldl maxStep (some b) = some p ∧
      (p = b ∨ p ∈ l) ∧ b.roundId ≤ p.roundId ∧ ∀ r ∈ l, r.roundId ≤ p.roundId := by
  induction l with
  | nil => exact fun b => ⟨b, rfl, Or.inl rfl, le_refl _, by simp⟩
  | cons hd tl ih =>
    intro b
    show ∃ p, tl.foldl maxStep (maxStep (some b) hd) = some p ∧ _
    by_cases hlt : b.roundId < hd.roundId
    · have hstep : maxStep (some b) hd = some hd := by simp [maxStep, hlt]
      obtain ⟨p, hp, hmem, hble, hall⟩ := ih hd
      rw [hstep]
      refine ⟨p, hp, ?_, le_of_lt (lt_of_lt_of_le hlt hble), ?_⟩
      · rcases hmem with h | h
        · exact Or.inr (by simp [h])
        · exact Or.inr (List.mem_cons_of_mem _ h)
      · intro r hr
        rcases List.mem_cons.mp hr with h | h
        · rw [h]; exact hble
        · exact hall r h
    · have hstep : maxStep (some b) hd = some b := by simp [maxStep, hlt]
      obtain ⟨p, hp, hmem, hble, hall⟩ := ih b
      rw [hstep]
      refine ⟨p, hp, ?_, hble, ?_⟩
      · rcases hmem with h | h
        · exact Or.inl h
        · exact Or.inr (List.mem_cons_of_mem _ h)
      · intro r hr
        rcases List.mem_cons.mp hr with h | h
        · rw [h]; exact le_trans (le_of_not_lt hlt) hble
        · exact hall r h

theorem maxByRoundId?_spec (l : List UserRoundStatsRow) (p : UserRoundStatsRow)
    (h : maxByRoundId? l = some p) : p ∈ l ∧ ∀ r ∈ l, r.roundId ≤ p.roundId := by
  cases l with
  | nil => simp [maxByRoundId?] at h
  | cons hd tl =>
    have heq : maxByRoundId? (hd :: tl) = tl.foldl maxStep (some hd) := rfl
    rw [heq] at h
    obtain ⟨p', hp', hmem, hble, hall⟩ := foldl_maxStep_some tl hd
    rw [hp'] at h
    obtain rfl : p' = p := by injection h
    constructor
    · rcases hmem with h' | h'
      · rw [h']; exact List.mem_cons_self hd tl
      · exact List.mem_cons_of_mem _ h'
    · intro r hr
      rcases List.mem_cons.mp hr with h' | h'
      · rw [h']; exact hble
      · exact hall r h'

theorem maxByRoundId?_exists (l : List UserRoundStatsRow) (r' : UserRoundStatsRow)
    (h : r' ∈ l) :
    ∃ p, maxByRoundId? l = some p ∧ r'.roundId ≤ p.roundId ∧ p ∈ l := by
  cases l with
  | nil => cases h
  | cons hd tl =>
    obtain ⟨p, hp, hmem, hble, hall⟩ := foldl_maxStep_some tl hd
    have heq : maxByRoundId? (hd :: tl) = tl.foldl maxStep (some hd) := rfl
    refine ⟨p, heq ▸ hp, ?_, ?_⟩
    · rcases List.mem_cons.mp h with h' | h'
      · rw [h']; exact hble
      · exact hall r' h'
    · rcases hmem with h' | h'
      · rw [h']; exact List.mem_cons_self hd tl
      · exact List.mem_cons_of_mem _ h'

theorem previousRound?_spec (stats : List UserRoundStatsRow) (u t c : String) (rid : Int)
    (p : UserRoundStatsRow) (h : previousRound? stats u t c rid = some p) :
    p ∈ stats ∧ p.user = u ∧ p.token = t ∧ p.contractAddress = c ∧ p.roundId < rid := by
  unfold previousRound? at h
  obtain ⟨hmem, -⟩ := maxByRoundId?_spec _ _ h
  obtain ⟨hs, hf⟩ := List.mem_filter.mp hmem
  simp only [previousRoundFilter, Bool.and_eq_true, beq_iff_eq, decide_eq_true_eq] at hf
  exact ⟨hs, hf.1.1.1, hf.1.1.2, hf.1.2, hf.2⟩

theorem previousRound?_adjacent (stats : List UserRoundStatsRow) (u t c : String) (rid : Int)
    (r' : UserRoundStatsRow) (hmem : r' ∈ stats) (hu : r'.user = u) (ht : r'.token = t)
    (hc : r'.contractAddress = c) (hr : r'.roundId = rid - 1) :
    ∃ p, previousRound? stats u t c rid = some p ∧ p.roundId = rid - 1 := by
  have hfilter : r' ∈ stats.filter (fun r => previousRoundFilter r u t c rid) := by
    rw [List.mem_filter]
    refine ⟨hmem, ?_⟩
    simp only [previousRoundFilter, Bool.and_eq_true, beq_iff_eq, decide_eq_true_eq]
    exact ⟨⟨⟨hu, ht⟩, hc⟩, by omega⟩
  obtain ⟨p, hp, hle, hpmem⟩ := maxByRoundId?_exists _ _ hfilter
  have hplt : p.roundId < rid := by
    obtain ⟨-, hf⟩ := List.mem_filter.mp hpmem
    simp only [previousRoundFilter, Bool.and_eq_true, decide_eq_true_eq] at hf
    exact hf.2
  refine ⟨p, hp, ?_⟩
  omega

theorem purchaseStatsBase_not_consecutive (stats : List UserRoundStatsRow)
    (e : TicketPurchasedEvent)
    (hcons : ∀ r0 ∈ stats,
      statsKeyMatches r0 e.buyer e.token e.roundId e.contractAddress = true →
      r0.isConsecutive = true →
      ∃ r' ∈ stats, statsKeyMatches r' e.buyer e.token (e.roundId - 1)
        e.contractAddress = true)
    (hno : ¬ ∃ r' ∈ stats, statsKeyMatches r' e.buyer e.token (e.roundId - 1)
        e.contractAddress = true) :
    (purchaseStatsBase stats e).isConsecutive = false := by
  unfold purchaseStatsBase
  cases hex : findStats? stats e.buyer e.token e.roundId e.contractAddress with
  | none => rfl
  | some r0 =>
    obtain ⟨hmem, h1, h2, h3, h4⟩ := findStats?_mem_key _ _ _ _ _ _ hex
    have key : statsKeyMatches r0 e.buyer e.token e.roundId e.contractAddress = true := by
      simp [statsKeyMatches, h1, h2, h3, h4]
    show r0.isConsecutive = false
    by_contra hcbool
    exact hno (hcons r0 hmem key (Bool.ne_false_iff.mp hcbool))

theorem purchaseStatsUpdate_streak (stats : List UserRoundStatsRow) (e : TicketPurchasedEvent)
    (hcons : ∀ r0 ∈ stats,
      statsKeyMatches r0 e.buyer e.token e.roundId e.contractAddress = true →
      r0.isConsecutive = true →
      ∃ r' ∈ stats, statsKeyMatches r' e.buyer e.token (e.roundId - 1)
        e.contractAddress = true) :
    (∀ p, previousRound? stats e.buyer e.token e.contractAddress e.roundId = some p →
        p.roundId = e.roundId - 1 →
        (purchaseStatsUpdate stats e).isConsecutive = true ∧
        (purchaseStatsUpdate stats e).consecutiveRounds =
          (if p.isConsecutive then p.consecutiveRounds + 1 else 1))
    ∧ ((¬ ∃ r' ∈ stats, statsKeyMatches r' e.buyer e.token (e.roundId - 1)
          e.contractAddress = true) →
        (purchaseStatsUpdate stats e).isConsecutive = false ∧
        (purchaseStatsUpdate stats e).consecutiveRounds = 0) := by
  constructor
  · intro p hp hadj
    unfold purchaseStatsUpdate
    rw [hp]
    dsimp only
    rw [if_pos (show (p.roundId == e.roundId - 1) = true from beq_iff_eq.mpr hadj)]
    exact ⟨rfl, rfl⟩
  · intro hno
    unfold purchaseStatsUpdate
    cases hprev : previousRound? stats e.buyer e.token e.contractAddress e.roundId with
    | none =>
      exact ⟨purchaseStatsBase_not_consecutive stats e hcons hno, rfl⟩
    | some p =>
      obtain ⟨hpmem, hu, ht, hc, -⟩ := previousRound?_spec _ _ _ _ _ _ hprev
      have hne : p.roundId ≠ e.roundId - 1 := by
        intro heq
        exact hno ⟨p, hpmem, by simp [statsKeyMatches, hu, ht, hc, heq]⟩
      dsimp only
      rw [if_neg (show ¬ (p.roundId == e.roundId - 1) = true by simpa using hne)]
      exact ⟨purchaseStatsBase_not_consecutive stats e hcons hno, rfl⟩

/-- C2.  The streak fields written by a ticket-purchase application: when the
most recent prior `user_round_stats` row of the same user, token and contract
is adjacent (`roundId = current - 1`), the written row has
`isConsecutive = true` and `consecutiveRounds = prior.consecutiveRounds + 1`
if the prior row was itself consecutive, else `1`; when no adjacent prior row
exists (no prior row, or a skipped round), the written row has
`isConsecutive = false` and `consecutiveRounds = 0`.  The `hcons` hypothesis is
the store invariant (preserved by the appliers themselves) that a row marked
consecutive has an adjacent predecessor row. -/
theorem purchase_streak_spec (db : DB) (e : TicketPurchasedEvent)
    (hfresh : hasPurchaseKey db.purchases e.transactionHash e.logIndex = false)
    (hcons : ∀ r0 ∈ db.stats,
      statsKeyMatches r0 e.buyer e.token e.roundId e.contractAddress = true →
      r0.isConsecutive = true →
      ∃ r' ∈ db.stats, statsKeyMatches r' e.buyer e.token (e.roundId - 1)
        e.contractAddress = true) :
    ∃ r, findStats? (processTicketPurchasedEvent db e).stats e.buyer e.token e.roundId
        e.contractAddress = some r
      ∧ (∀ p, previousRound? db.stats e.buyer e.token e.contractAddress e.roundId = some p →
          p.roundId = e.roundId - 1 →
          r.isConsecutive = true ∧
            r.consecutiveRounds = (if p.isConsecutive then p.consecutiveRounds + 1 else 1))
      ∧ ((¬ ∃ r' ∈ db.stats, statsKeyMatches r' e.buyer e.token (e.roundId - 1)
            e.contractAddress = true) →
          r.isConsecutive = false ∧ r.consecutiveRounds = 0) := by
  rw [processTicketPurchased_fresh db e hfresh]
  obtain ⟨h1, h2, h3, h4⟩ := purchaseStatsUpdate_key db.stats e
  refine ⟨purchaseStatsUpdate db.stats e, ?_,
    (purchaseStatsUpdate_streak db.stats e hcons).1,
    (purchaseStatsUpdate_streak db.stats e hcons).2⟩
  show findStats? (saveStats db.stats (purchaseStatsUpdate db.stats e)) _ _ _ _ = _
  conv_lhs => rw [← h1, ← h2, ← h3, ← h4]
  exact findStats?_saveStats_self db.stats (purchaseStatsUpdate db.stats e)

/-- C2 witness: the spec's example — the user plays rounds 5, 6 and 8; round 6
is consecutive with streak 1, round 8 (after skipping round 7) is not
consecutive with streak 0. -/
theorem purchase_streak_spec_witness :
    ((findStats? dbAfterRound5.stats "0xU" "T" 5 "0xC").map
        (fun r => (r.isConsecutive, r.consecutiveRounds)) = some (false, 0)
    ∧ (findStats? dbAfterRound6.stats "0xU" "T" 6 "0xC").map
        (fun r => (r.isConsecutive, r.consecutiveRounds)) = some (true, 1)
    ∧ (findStats? dbAfterRound8.stats "0xU" "T" 8 "0xC").map
        (fun r => (r.isConsecutive, r.consecutiveRounds)) = some (false, 0))
    ∧ (∃ r, findStats? (processTicketPurchasedEvent dbAfterRound6
          (streakPurchase 8 "0x3")).stats "0xU" "T" (8 : Int) "0xC" = some r
        ∧ (∀ p, previousRound? dbAfterRound6.stats "0xU" "T" "0xC" (8 : Int) = some p →
            p.roundId = (8 : Int) - 1 →
            r.isConsecutive = true ∧
              r.consecutiveRounds = (if p.isConsecutive then p.consecutiveRounds + 1 else 1))
        ∧ ((¬ ∃ r' ∈ dbAfterRound6.stats, statsKeyMatches r' "0xU" "T" ((8 : Int) - 1)
              "0xC" = true) →
            r.isConsecutive = false ∧ r.consecutiveRounds = 0)) :=
  ⟨by decide, purchase_streak_spec dbAfterRound6 (streakPurchase 8 "0x3")
    (by decide) (by decide)⟩

/-! ## Claim C3: backfill chunking -/

theorem chunkLoop_nil (maxRange fuel currentFrom toBlock : Nat) (h : toBlock < currentFrom) :
    chunkLoop maxRange fuel currentFrom toBlock = [] := by
  cases fuel with
  | zero => rfl
  | succ n => simp [chunkLoop, Nat.not_le.mpr h]

theorem chunkLoop_cons (maxRange fuel currentFrom toBlock : Nat) (h : currentFrom ≤ toBlock) :
    chunkLoop maxRange (fuel + 1) currentFrom toBlock =
      (currentFrom, min (currentFrom + maxRange - 1) toBlock) ::
        chunkLoop maxRange fuel (min (currentFrom + maxRange - 1) toBlock + 1) toBlock := by
  simp [chunkLoop, h]

theorem chunkLoop_chain (maxRange : Nat) (hmax : 1 ≤ maxRange) (toBlock : Nat) :
    ∀ fuel currentFrom,
      List.Chain' (fun a b : Nat × Nat => b.1 = a.2 + 1 ∧ a.2 < b.2)
        (chunkLoop maxRange fuel currentFrom toBlock)
  | 0, currentFrom => by simp [chunkLoop]
  | fuel + 1, currentFrom => by
    by_cases h : currentFrom ≤ toBlock
    · rw [chunkLoop_cons _ _ _ _ h, List.chain'_cons']
      refine ⟨?_, chunkLoop_chain maxRange hmax toBlock fuel _⟩
      intro y hy
      cases fuel with
      | zero => simp [chunkLoop] at hy
      | succ m =>
        by_cases h2 : min (currentFrom + maxRange - 1) toBlock + 1 ≤ toBlock
        · rw [chunkLoop_cons _ _ _ _ h2] at hy
          simp at hy
          subst hy
          dsimp only
          refine ⟨rfl, ?_⟩
          rw [lt_min_iff]
          constructor
          · omega
          · omega
        · rw [chunkLoop_nil _ _ _ _ (by omega)] at hy
          simp at hy
    · rw [chunkLoop_nil _ _ _ _ (by omega)]
      simp

theorem chunkLoop_last (maxRange : Nat) (hmax : 1 ≤ maxRange) (toBlock : Nat) :
    ∀ fuel currentFrom, currentFrom ≤ toBlock → toBlock + 1 - currentFrom ≤ fuel →
      ∃ c : Nat × Nat, (chunkLoop maxRange fuel currentFrom toBlock).getLast? = some c ∧
        c.2 = toBlock := by
  intro fuel
  induction fuel with
  | zero => intro currentFrom h hf; exact absurd hf (by omega)
  | succ n ih =>
    intro currentFrom h hf
    rw [chunkLoop_cons _ _ _ _ h]
    have htle : min (currentFrom + maxRange - 1) toBlock ≤ toBlock := Nat.min_le_right _ _
    by_cases hend : min (currentFrom + maxRange - 1) toBlock = toBlock
    · rw [chunkLoop_nil _ _ _ _ (by omega)]
      exact ⟨(currentFrom, min (currentFrom + maxRange - 1) toBlock), rfl, hend⟩
    · have hge : currentFrom ≤ min (currentFrom + maxRange - 1) toBlock :=
        le_min (by omega) h
      have h2 : min (currentFrom + maxRange - 1) toBlock + 1 ≤ toBlock := by omega
      have hf2 : toBlock + 1 - (min (currentFrom + maxRange - 1) toBlock + 1) ≤ n := by omega
      obtain ⟨c, hc, hc2⟩ := ih _ h2 hf2
      refine ⟨c, ?_, hc2⟩
      cases hl : chunkLoop maxRange n (min (currentFrom + maxRange - 1) toBlock + 1) toBlock with
      | nil => rw [hl] at hc; simp at hc
      | cons x xs =>
        rw [hl] at hc
        rw [List.getLast?_cons_cons]
        exact hc

theorem chunkLoop_mem (maxRange : Nat) (hmax : 1 ≤ maxRange) (toBlock : Nat) :
    ∀ fuel currentFrom, ∀ c ∈ chunkLoop maxRange fuel currentFrom toBlock,
      c.1 ≤ c.2 ∧ c.2 + 1 - c.1 ≤ maxRange := by
  intro fuel
  induction fuel with
  | zero => intro currentFrom c hc; simp [chunkLoop] at hc
  | succ n ih =>
    intro currentFrom c hc
    by_cases h : currentFrom ≤ toBlock
    · rw [chunkLoop_cons _ _ _ _ h] at hc
      rcases List.mem_cons.mp hc with h' | h'
      · subst h'
        have hminl := Nat.min_le_left (currentFrom + maxRange - 1) toBlock
        refine ⟨le_min (by omega) h, ?_⟩
        dsimp only
        omega
      · exact ih _ c h'
    · rw [chunkLoop_nil _ _ _ _ (by omega)] at hc
      simp at hc

theorem backfillLoop_eq (maxRange toBlock : Nat) :
    ∀ fuel currentFrom,
      backfillLoop maxRange fuel currentFrom toBlock =
        (chunkLoop maxRange fuel currentFrom toBlock).flatMap
          (fun c => [BackfillStep.fetchChunk c.1 c.2, BackfillStep.cursorWrite c.2]) := by
  intro fuel
  induction fuel with
  | zero => intro currentFrom; rfl
  | succ n ih =>
    intro currentFrom
    by_cases h : currentFrom ≤ toBlock
    · rw [chunkLoop_cons _ _ _ _ h]
      simp [backfillLoop, h, ih]
    · rw [chunkLoop_nil _ _ _ _ (by omega)]
      simp [backfillLoop, h]

/-- C3.  A backfill over a contiguous range whose span exceeds the chunk size
is split into consecutive, non-overlapping chunks of at most that size in
ascending order: the first chunk starts at `fromBlock` and spans the full
chunk size, the last chunk ends at `toBlock`, each next chunk starts right
after the previous one, every chunk has at most `maxRange` blocks, and the
step trace interleaves each chunk with a cursor write to that chunk's end
block before the next chunk starts. -/
theorem backfill_chunking_spec (maxRange fromBlock toBlock : Nat)
    (hmax : 1 ≤ maxRange) (hle : fromBlock ≤ toBlock)
    (hbig : maxRange < toBlock + 1 - fromBlock) :
    (chunkRanges maxRange fromBlock toBlock).head? =
        some (fromBlock, fromBlock + maxRange - 1)
    ∧ (∃ c : Nat × Nat, (chunkRanges maxRange fromBlock toBlock).getLast? = some c ∧
        c.2 = toBlock)
    ∧ List.Chain' (fun a b : Nat × Nat => b.1 = a.2 + 1)
        (chunkRanges maxRange fromBlock toBlock)
    ∧ (∀ c ∈ chunkRanges maxRange fromBlock toBlock, c.1 ≤ c.2 ∧ c.2 + 1 - c.1 ≤ maxRange)
    ∧ fetchHistoricalPlan maxRange fromBlock toBlock =
        (chunkRanges maxRange fromBlock toBlock).flatMap
          (fun c => [BackfillStep.fetchChunk c.1 c.2, BackfillStep.cursorWrite c.2]) := by
  refine ⟨?_, ?_, ?_, ?_, ?_⟩
  · unfold chunkRanges
    obtain ⟨k, hk⟩ : ∃ k, toBlock + 1 - fromBlock = k + 1 := ⟨toBlock - fromBlock, by omega⟩
    rw [hk, chunkLoop_cons _ _ _ _ hle, Nat.min_eq_left (by omega)]
    rfl
  · exact chunkLoop_last maxRange hmax toBlock _ fromBlock hle (le_refl _)
  · exact List.Chain'.imp (fun a b hab => hab.1)
      (chunkLoop_chain maxRange hmax toBlock _ fromBlock)
  · exact chunkLoop_mem maxRange hmax toBlock _ fromBlock
  · unfold fetchHistoricalPlan chunkRanges
    rw [if_neg (by omega)]
    exact backfillLoop_eq maxRange toBlock _ fromBlock

/-- C3 witness: range [100, 124999] with chunk size 10000 gives the thirteen
chunks [100,10099], [10100,20099], …, [120100,124999]. -/
theorem backfill_chunking_spec_witness :
    chunkRanges 10000 100 124999 =
      [(100, 10099), (10100, 20099), (20100, 30099), (30100, 40099), (40100, 50099),
       (50100, 60099), (60100, 70099), (70100, 80099), (80100, 90099), (90100, 100099),
       (100100, 110099), (110100, 120099), (120100, 124999)]
    ∧ ((chunkRanges 10000 100 124999).head? = some (100, 100 + 10000 - 1)
    ∧ (∃ c : Nat × Nat, (chunkRanges 10000 100 124999).getLast? = some c ∧ c.2 = 124999)
    ∧ List.Chain' (fun a b : Nat × Nat => b.1 = a.2 + 1) (chunkRanges 10000 100 124999)
    ∧ (∀ c ∈ chunkRanges 10000 100 124999, c.1 ≤ c.2 ∧ c.2 + 1 - c.1 ≤ 10000)
    ∧ fetchHistoricalPlan 10000 100 124999 =
        (chunkRanges 10000 100 124999).flatMap
          (fun c => [BackfillStep.fetchChunk c.1 c.2, BackfillStep.cursorWrite c.2])) :=
  ⟨by decide, backfill_chunking_spec 10000 100 124999 (by decide) (by decide) (by decide)⟩

/-! ## Claim C4: sync-cursor monotonicity -/

theorem storedCursor_update (cursors : List SyncCursorRow)
    (blockchainName contractAddress : String) (pos : Int)
    (hp : pos ≠ 0) (hb : blockchainName ≠ "") (hc : contractAddress ≠ "") :
    storedCursor (updateLastSyncedBlock cursors blockchainName contractAddress pos)
      blockchainName contractAddress = some pos := by
  unfold updateLastSyncedBlock
  rw [if_neg (by simp [hp, hb, hc])]
  by_cases hany : cursors.any (fun c => cursorKeyMatches c blockchainName contractAddress)
  · rw [if_pos hany]
    unfold storedCursor
    rw [find?_map_update (fun c => cursorKeyMatches c blockchainName contractAddress)
        (fun c => { c with lastSyncedBlock := pos }) (fun a => rfl) cursors]
    cases hf : List.find? (fun c => cursorKeyMatches c blockchainName contractAddress)
        cursors with
    | none =>
      rw [List.find?_eq_none] at hf
      obtain ⟨x, hx, hpx⟩ := List.any_eq_true.mp hany
      exact absurd hpx (hf x hx)
    | some y => simp
  · rw [if_neg hany]
    unfold storedCursor
    rw [List.find?_append]
    have hfalse : cursors.any (fun c => cursorKeyMatches c blockchainName contractAddress)
        = false := by
      simpa using hany
    have hnone : List.find? (fun c => cursorKeyMatches c blockchainName contractAddress)
        cursors = none :=
      List.find?_eq_none.mpr (List.any_eq_false.mp hfalse)
    rw [hnone]
    simp [cursorKeyMatches]

/-- C4 counterexample: with a stored cursor at block 107 for
`("ethereum", "0xC")`, applying a fresh TicketPurchased event of block 100
stores position 100 — a service write that lowers the stored cursor, so the
claimed store-level monotonicity fails. -/
theorem cursor_write_not_monotonic_cex :
    storedCursor dbCursor107.cursors "ethereum" "0xC" = some 107
    ∧ storedCursor (processTicketPurchasedEvent dbCursor107 latePurchase).cursors
        "ethereum" "0xC" = some 100
    ∧ (100 : Int) < 107 := by decide

/-- C4 amended: the cursor write is an unconditional overwrite — the store ends
up holding exactly the passed position, with no comparison against the stored
one — so monotonicity holds only when callers pass non-decreasing positions.
The chunked backfill does: its successive per-chunk cursor writes strictly
increase.  Event applications pass the event's own block number, which a
counterexample shows can lower the cursor. -/
theorem cursor_overwrite_and_backfill_monotone (cursors : List SyncCursorRow)
    (blockchainName contractAddress : String) (pos : Int) (maxRange fromBlock toBlock : Nat)
    (hp : pos ≠ 0) (hb : blockchainName ≠ "") (hc : contractAddress ≠ "")
    (hmax : 1 ≤ maxRange) :
    storedCursor (updateLastSyncedBlock cursors blockchainName contractAddress pos)
        blockchainName contractAddress = some pos
    ∧ List.Chain' (fun a b : Nat => a < b)
        ((chunkRanges maxRange fromBlock toBlock).map Prod.snd) := by
  refine ⟨storedCursor_update cursors _ _ pos hp hb hc, ?_⟩
  rw [List.chain'_map]
  unfold chunkRanges
  exact List.Chain'.imp (fun a b hab => hab.2)
    (chunkLoop_chain maxRange hmax toBlock _ fromBlock)

/-- C4 witness for the amended statement: a fresh cursor row is written with
position 107, and the 13 chunk-end cursor writes of the example backfill
strictly increase. -/
theorem cursor_overwrite_and_backfill_monotone_witness :
    ((107 : Int) ≠ 0 ∧ "ethereum" ≠ "" ∧ "0xC" ≠ "" ∧ (1 : Nat) ≤ 10000)
    ∧ (storedCursor (updateLastSyncedBlock [] "ethereum" "0xC" 107) "ethereum" "0xC"
        = some 107
    ∧ List.Chain' (fun a b : Nat => a < b)
        ((chunkRanges 10000 100 124999).map Prod.snd)) :=
  ⟨by decide, cursor_overwrite_and_backfill_monotone [] "ethereum" "0xC" 107 10000 100 124999
    (by decide) (by decide) (by decide) (by decide)⟩

/-! ## Claim C5: one Round row per (contract, token, roundId) -/

/-- C5: the `rounds` table has no unique natural key (the migration only adds
non-unique single-column indexes) and the Round insert precedes the guarded
bonus insert, so re-delivering the same FirstTicketBonusAwarded event (same
transactionHash and index) inserts a second Round row for the same
(contract, token, roundId): the 23505 guard only stops the bonus insert and
the cursor write, after the duplicate Round row has already been persisted. -/
theorem round_row_duplicated_on_redelivery :
    countRounds (processFirstTicketBonusEvent emptyDB bonusB).rounds "0xC" "T" 7 = 1
    ∧ countRounds (processFirstTicketBonusEvent
        (processFirstTicketBonusEvent emptyDB bonusB) bonusB).rounds "0xC" "T" 7 = 2 := by
  decide

/-! ## Claim C6: forceReconnect -/

/-- C6: `forceReconnect` merely delegates to `reconnectBlockchain` and never
resets the attempt counter; with the counter at the maximum (5), the call
performs no attempt, changes no state and schedules nothing — even when the
underlying reconnection would succeed — contradicting the claimed
reset-and-reenter behavior. -/
theorem forceReconnect_at_max_is_noop :
    forceReconnect 5 5000 { reconnectAttempts := 5, connected := false } true =
      { state := { reconnectAttempts := 5, connected := false }, attempted := false,
        waitBefore := 0, scheduledRetryDelay := none } := by decide

/-! ## Claim C7: reconnect delays and attempt bound -/

/-- C7 counterexample: the first reconnect attempt (attempt number 1, from a
zero counter) waits `reconnectDelay * 0 = 0` milliseconds before recreating
the connection, not base × attemptNumber = 5000 ms. -/
theorem first_attempt_wait_is_zero :
    (reconnectBlockchain 5 5000 { reconnectAttempts := 0, connected := true }
        false).attempted = true
    ∧ (reconnectBlockchain 5 5000 { reconnectAttempts := 0, connected := true }
        false).waitBefore = 0 := by decide

/-- C7 amended: with base delay 5000 ms and at most 5 attempts, the in-attempt
waits of the five failing attempts are base × (n − 1) = 0, 5000, 10000, 15000,
20000 ms, the retries scheduled after failing attempts 1..5 fire after
base × n = 5000, 10000, 15000, 20000, 25000 ms, and the sixth invocation makes
no attempt; in general any invocation with the counter at or above the maximum
performs no attempt, changes nothing and schedules nothing, so after five
consecutive failures no further automatic attempt ever occurs. -/
theorem reconnect_delay_and_bound_spec (maxAttempts base : Nat) (s : ChainState) (b : Bool)
    (h : maxAttempts ≤ s.reconnectAttempts) :
    reconnectBlockchain maxAttempts base s b =
      { state := s, attempted := false, waitBefore := 0, scheduledRetryDelay := none }
    ∧ (reconnectFailTrace 5 5000 6 { reconnectAttempts := 0, connected := true }).map
        (fun o => o.attempted) = [true, true, true, true, true, false]
    ∧ (reconnectFailTrace 5 5000 6 { reconnectAttempts := 0, connected := true }).map
        (fun o => o.waitBefore) = [0, 5000, 10000, 15000, 20000, 0]
    ∧ (reconnectFailTrace 5 5000 6 { reconnectAttempts := 0, connected := true }).map
        (fun o => o.scheduledRetryDelay)
      = [some 5000, some 10000, some 15000, some 20000, some 25000, none] := by
  refine ⟨?_, by decide, by decide, by decide⟩
  unfold reconnectBlockchain
  rw [if_pos h]

/-- C7 witness: the general no-further-attempt clause applied to the state
reached after five consecutive failures. -/
theorem reconnect_delay_and_bound_spec_witness :
    (5 : Nat) ≤ 5
    ∧ (reconnectBlockchain 5 5000 { reconnectAttempts := 5, connected := false } false =
        { state := { reconnectAttempts := 5, connected := false }, attempted := false,
          waitBefore := 0, scheduledRetryDelay := none }
    ∧ (reconnectFailTrace 5 5000 6 { reconnectAttempts := 0, connected := true }).map
        (fun o => o.attempted) = [true, true, true, true, true, false]
    ∧ (reconnectFailTrace 5 5000 6 { reconnectAttempts := 0, connected := true }).map
        (fun o => o.waitBefore) = [0, 5000, 10000, 15000, 20000, 0]
    ∧ (reconnectFailTrace 5 5000 6 { reconnectAttempts := 0, connected := true }).map
        (fun o => o.scheduledRetryDelay)
      = [some 5000, some 10000, some 15000, some 20000, some 25000, none]) :=
  ⟨by decide, reconnect_delay_and_bound_spec 5 5000
    { reconnectAttempts := 5, connected := false } false (by decide)⟩

/-! ## Claim C8: Solana backfill ordering -/

theorem collectSignatures_sublist (fromBlock toBlock : Int) :
    ∀ pages : List (List SigInfo),
      (collectSignatures fromBlock toBlock pages).Sublist pages.flatten
  | [] => by simp [collectSignatures]
  | [] :: rest => by simp [collectSignatures]
  | (first :: tail) :: rest => by
    unfold collectSignatures
    rw [List.flatten_cons]
    by_cases h1 : first.slot < fromBlock
    · rw [if_pos h1]; exact List.nil_sublist _
    · rw [if_neg h1]
      by_cases h2 : ((first :: tail).getLast (List.cons_ne_nil first tail)).slot < fromBlock
      · rw [if_pos h2]
        exact (List.filter_sublist _).trans (List.sublist_append_left _ _)
      · rw [if_neg h2]
        by_cases h3 : (first :: tail).length < solanaPageLimit
        · rw [if_pos h3]
          exact (List.filter_sublist _).trans (List.sublist_append_left _ _)
        · rw [if_neg h3]
          exact List.Sublist.append (List.filter_sublist _)
            (collectSignatures_sublist fromBlock toBlock rest)

/-- C8.  The Solana backfill applies the fetched transactions oldest-first:
the pagination loop collects a subsequence of the newest-first signature
stream returned by the history API, and `fetchSolanaTransactions` reverses it
before the processing loop; hence the apply order is sorted by ascending slot,
and any item with a strictly smaller slot (such as the
FirstTicketBonusAwarded that creates the Round) is applied strictly before any
item with a larger slot (such as a later TicketPurchased of the same round). -/
theorem solana_backfill_oldest_first (fromBlock toBlock : Int) (pages : List (List SigInfo))
    (hdesc : List.Pairwise (fun a b : SigInfo => b.slot ≤ a.slot) pages.flatten) :
    List.Pairwise (fun a b : SigInfo => a.slot ≤ b.slot)
        (solanaApplyOrder fromBlock toBlock pages)
    ∧ ∀ i j : Fin (solanaApplyOrder fromBlock toBlock pages).length,
        ((solanaApplyOrder fromBlock toBlock pages).get i).slot
            < ((solanaApplyOrder fromBlock toBlock pages).get j).slot → i < j := by
  have hcol : List.Pairwise (fun a b : SigInfo => b.slot ≤ a.slot)
      (collectSignatures fromBlock toBlock pages) :=
    List.Pairwise.sublist (collectSignatures_sublist fromBlock toBlock pages) hdesc
  have hasc : List.Pairwise (fun a b : SigInfo => a.slot ≤ b.slot)
      (solanaApplyOrder fromBlock toBlock pages) := by
    unfold solanaApplyOrder
    rw [List.pairwise_reverse]
    exact hcol
  refine ⟨hasc, ?_⟩
  intro i j hlt
  by_contra hij
  push_neg at hij
  rcases eq_or_lt_of_le hij with heq | hji
  · rw [heq] at hlt; exact lt_irrefl _ hlt
  · have hle := (List.pairwise_iff_get.mp hasc) j i hji
    omega

/-- C8 witness: one newest-first page holding the TicketPurchased transaction
of slot 20 before the FirstTicketBonusAwarded transaction of slot 10; the
apply order is the reverse — the bonus first, then the purchase. -/
theorem solana_backfill_oldest_first_witness :
    List.Pairwise (fun a b : SigInfo => b.slot ≤ a.slot) solanaPage.flatten
    ∧ solanaApplyOrder 0 100 solanaPage =
        [{ signature := "sigBonus", slot := 10 }, { signature := "sigPurchase", slot := 20 }]
    ∧ (List.Pairwise (fun a b : SigInfo => a.slot ≤ b.slot) (solanaApplyOrder 0 100 solanaPage)
    ∧ ∀ i j : Fin (solanaApplyOrder 0 100 solanaPage).length,
        ((solanaApplyOrder 0 100 solanaPage).get i).slot
            < ((solanaApplyOrder 0 100 solanaPage).get j).slot → i < j) :=
  ⟨by decide, by decide, solana_backfill_oldest_first 0 100 solanaPage (by decide)⟩

/-! ## Claim C9: EVM health probe threshold -/

/-- C9.  With threshold 5 and stored cursor 100: at height 107
(7 blocks behind > 5) the probe classifies the chain as behind and initiates a
backfill of exactly [101, 107] (the boolean it then returns is that backfill's
own result); at height 104 (4 ≤ 5) it reports healthy and initiates no
backfill. -/
theorem health_probe_threshold_spec :
    syncNeeded 107 100 5 = true
    ∧ (∀ b, checkConnectionHealthEvm 107 (some 100) 5 b = (b, some (101, 107)))
    ∧ syncNeeded 104 100 5 = false
    ∧ (∀ b, checkConnectionHealthEvm 104 (some 100) 5 b = (true, none)) := by
  refine ⟨by decide, fun b => ?_, by decide, fun b => ?_⟩
  · cases b <;> rfl
  · cases b <;> rfl

/-! ## Claim C10: the health probe reads only the first contract -/

/-- C10.  The EVM health probe reads only `contractAddresses[0]`: its catch-up
decision is unchanged by the tail of the contract list and by the cursors of
every other contract, and any backfill it initiates targets the first address;
sync lag on a later configured contract never triggers a health-probe
backfill. -/
theorem health_probe_first_contract_only (a : String) (rest rest2 : List String)
    (cursors cursors2 : List SyncCursorRow) (blockchainName : String) (height threshold : Int)
    (h : getLastSyncedBlock cursors blockchainName a
        = getLastSyncedBlock cursors2 blockchainName a) :
    healthCheckBackfillTarget (a :: rest) blockchainName cursors height threshold
        = healthCheckBackfillTarget (a :: rest2) blockchainName cursors2 height threshold
    ∧ ∀ addr lo hi,
        healthCheckBackfillTarget (a :: rest) blockchainName cursors height threshold
            = some (addr, lo, hi) → addr = a := by
  constructor
  · unfold healthCheckBackfillTarget
    dsimp only
    rw [h]
  · intro addr lo hi hsome
    unfold healthCheckBackfillTarget at hsome
    dsimp only at hsome
    cases hg : getLastSyncedBlock cursors blockchainName a with
    | none => rw [hg] at hsome; cases hsome
    | some last =>
      rw [hg] at hsome
      dsimp only at hsome
      by_cases hs : syncNeeded height last threshold = true
      · rw [if_pos hs] at hsome
        simp only [Option.some.injEq, Prod.mk.injEq] at hsome
        exact hsome.1.symm
      · rw [if_neg hs] at hsome
        cases hsome

/-- C10 witness: chain "ethereum" configured with ["0xA", "0xB"], contract 0xA
synced to 107 and contract 0xB stuck at block 1 (106 blocks behind, far over
the threshold): the probe's decision is the same as with 0xB dropped from the
configuration, and it initiates no backfill — 0xB's lag is invisible to it. -/
theorem health_probe_first_contract_only_witness :
    getLastSyncedBlock multiContractCursors "ethereum" "0xA"
        = getLastSyncedBlock multiContractCursors "ethereum" "0xA"
    ∧ syncNeeded 107 1 5 = true
    ∧ healthCheckBackfillTarget ["0xA", "0xB"] "ethereum" multiContractCursors 107 5 = none
    ∧ (healthCheckBackfillTarget ["0xA", "0xB"] "ethereum" multiContractCursors 107 5
        = healthCheckBackfillTarget ["0xA"] "ethereum" multiContractCursors 107 5
    ∧ ∀ addr lo hi,
        healthCheckBackfillTarget ["0xA", "0xB"] "ethereum" multiContractCursors 107 5
            = some (addr, lo, hi) → addr = "0xA") :=
  ⟨rfl, by decide, by decide,
    health_probe_first_contract_only "0xA" ["0xB"] [] multiContractCursors multiContractCursors
      "ethereum" 107 5 rfl⟩

end PotJack
